import Mathlib

/-!
Verification of the subtitle-format converter in backend/download_subtitle.py:
the functions ass_to_vtt, srt_to_vtt, convert_to_vtt and the nested helper
convert_timestamp are embedded as executable Lean definitions over character
lists, and the specified properties are proved about them.

Python string primitives (strip, lower, split, replace, the two regexes) are
modelled character by character for the ASCII inputs the converter handles.
-/

namespace Strmr

/-- Whitespace characters stripped by Python str.strip() (ASCII subset). -/
def isspacePy (c : Char) : Bool :=
  c = ' ' || c = '\t' || c = '\n' || c = '\r' || c = '\x0b' || c = '\x0c'

/-- ASCII lowercasing, as Python str.lower() acts on the ASCII letters. -/
def toLowerPy (c : Char) : Char :=
  if 'A' ≤ c && c ≤ 'Z' then Char.ofNat (c.toNat + 32) else c

/-- Python str.strip(): drop whitespace from both ends. -/
def pyStrip (l : List Char) : List Char :=
  ((l.dropWhile isspacePy).reverse.dropWhile isspacePy).reverse

/-- Python str.lower() on a character list. -/
def pyLower (l : List Char) : List Char := l.map toLowerPy

/-- Python str.split(sep) for a single-character separator. -/
def splitOnChar (sep : Char) : List Char → List (List Char)
  | [] => [[]]
  | c :: rest =>
    match splitOnChar sep rest with
    | h :: t => if c = sep then [] :: h :: t else (c :: h) :: t
    | [] => [[c]]

/-- Python str.split(',', maxsplit): split on commas, at most n splits, the
last field absorbing any surplus commas. -/
def splitCommaMax : Nat → List Char → List (List Char)
  | _, [] => [[]]
  | 0, l => [l]
  | n + 1, c :: rest =>
    if c = ',' then [] :: splitCommaMax n rest
    else
      match splitCommaMax (n + 1) rest with
      | h :: t => (c :: h) :: t
      | [] => [[c]]

/-- Python's substring test pat in l. -/
def containsSub : List Char → List Char → Bool
  | [], pat => pat.isPrefixOf ([] : List Char)
  | c :: t, pat => pat.isPrefixOf (c :: t) || containsSub t pat

/-- dict(zip(keys, vals)).get(k, ''): the last binding of a key wins, a
missing key yields the empty string. -/
def dictGet (pairs : List (List Char × List Char)) (k : List Char) : List Char :=
  pairs.foldl (fun acc p => if p.1 = k then p.2 else acc) []

/-- Python '\n'.join(lines). -/
def joinNl (ls : List (List Char)) : String := ⟨List.intercalate ['\n'] ls⟩

/-- State of the block splitter: scanning a block, just after one newline, or
inside a separator run of two or more newlines. -/
inductive SbSt
  | norm
  | pend
  | sep

/-- Character-level scanner implementing re.split of the input on runs of two
or more consecutive newline characters, the separator pattern srt_to_vtt
splits blocks on. A lone newline stays inside the current block. -/
def sbGo : List Char → SbSt → List Char → List (List Char) → List (List Char)
  | [], SbSt.norm, cur, acc => acc ++ [cur.reverse]
  | [], SbSt.pend, cur, acc => acc ++ [('\n' :: cur).reverse]
  | [], SbSt.sep, _, acc => acc ++ [[]]
  | c :: rest, SbSt.norm, cur, acc =>
    if c = '\n' then sbGo rest SbSt.pend cur acc
    else sbGo rest SbSt.norm (c :: cur) acc
  | c :: rest, SbSt.pend, cur, acc =>
    if c = '\n' then sbGo rest SbSt.sep [] (acc ++ [cur.reverse])
    else sbGo rest SbSt.norm (c :: '\n' :: cur) acc
  | c :: rest, SbSt.sep, cur, acc =>
    if c = '\n' then sbGo rest SbSt.sep cur acc
    else sbGo rest SbSt.norm [c] acc

/-- re.split of a text on runs of two or more newlines. -/
def splitBlocks (l : List Char) : List (List Char) := sbGo l SbSt.norm [] []

/-- re.match of the pattern used by convert_timestamp, anchored at the start
only: one or more digits, colon, two digits, colon, two digits, period, two
digits. Returns the four captured groups (hours, minutes, seconds,
centiseconds) on success; characters after the matched span are ignored. -/
def matchAssTs (l : List Char) : Option (List Char × List Char × List Char × List Char) :=
  let h := l.takeWhile Char.isDigit
  if h.isEmpty then none
  else
    match l.dropWhile Char.isDigit with
    | c0 :: m1 :: m2 :: c3 :: s1 :: s2 :: c6 :: c1 :: c2 :: _ =>
      if c0 = ':' ∧ c3 = ':' ∧ c6 = '.' ∧ m1.isDigit ∧ m2.isDigit ∧ s1.isDigit ∧ s2.isDigit
          ∧ c1.isDigit ∧ c2.isDigit then
        some (h, [m1, m2], [s1, s2], [c1, c2])
      else none
    | _ => none

/-- Python int() of a decimal digit string. -/
def digitsToNat (l : List Char) : Nat :=
  l.foldl (fun acc c => acc * 10 + (c.toNat - '0'.toNat)) 0

/-- Python format spec 02d on a natural number: zero-pad to width two. -/
def pad2L (n : Nat) : List Char :=
  if n < 10 then '0' :: Nat.toDigits 10 n else Nat.toDigits 10 n

/-- convert_timestamp from ass_to_vtt, on a character list: on a match of the
ASS pattern, rebuild the timestamp with the hour group rendered as a
zero-padded integer and a literal 0 appended to the centisecond group;
otherwise return the input unchanged. -/
def convertTimestampL (l : List Char) : List Char :=
  match matchAssTs l with
  | some (h, m, s, cs) =>
    pad2L (digitsToNat h) ++ ':' :: (m ++ ':' :: (s ++ '.' :: (cs ++ ['0'])))
  | none => l

/-- convert_timestamp as a function on strings. -/
def convert_timestamp (ts : String) : String := ⟨convertTimestampL ts.data⟩

/-- The Format: line handler of ass_to_vtt: drop the seven-character keyword,
strip, split on commas, strip and lowercase each column name. -/
def parseFormatLine (line : List Char) : List (List Char) :=
  (splitOnChar ',' (pyStrip (line.drop 7))).map (fun f => pyLower (pyStrip f))

/-- One pass of re.sub removing brace-delimited override tags: an opening
brace starts a buffered span that is discarded at the next closing brace; a
span never closed is emitted verbatim, because the regex requires a closing
brace to match, and no closing brace follows any later opening brace either. -/
def stripTagsGo : List Char → Option (List Char) → List Char
  | [], none => []
  | [], some buf => '\x7b' :: buf.reverse
  | c :: rest, none =>
    if c = '\x7b' then stripTagsGo rest (some [])
    else c :: stripTagsGo rest none
  | c :: rest, some buf =>
    if c = '\x7d' then stripTagsGo rest none
    else stripTagsGo rest (some (c :: buf))

/-- re.sub removing every brace-delimited tag span from the dialogue text. -/
def stripTags (l : List Char) : List Char := stripTagsGo l none

/-- Python str.replace of the two-character sequence backslash followed by t
with a real newline, scanning left to right, non-overlapping. -/
def replaceEsc (t : Char) : List Char → List Char
  | [] => []
  | [c] => [c]
  | c1 :: c2 :: rest =>
    if c1 = '\\' && c2 = t then '\n' :: replaceEsc t rest
    else c1 :: replaceEsc t (c2 :: rest)

/-- The Dialogue: row handler of ass_to_vtt: split the row payload into at
most len(schema) comma-separated fields, zip the schema onto the fields,
require nonempty start, end and text, convert the two timestamps, strip
override tags, replace the backslash-N and backslash-n escapes, and emit the
timing line and stripped text unless the cleaned text is whitespace-only. -/
def processDialogue (format_line : List (List Char)) (line : List Char) :
    Option (List Char × List Char) :=
  let parts := splitCommaMax (format_line.length - 1) (line.drop 9)
  if parts.length < format_line.length then none
  else
    let dialogue := format_line.zip parts
    let start := dictGet dialogue ['s', 't', 'a', 'r', 't']
    let end_ := dictGet dialogue ['e', 'n', 'd']
    let text := dictGet dialogue ['t', 'e', 'x', 't']
    if start.isEmpty || end_.isEmpty || text.isEmpty then none
    else
      let vtt_start := convertTimestampL start
      let vtt_end := convertTimestampL end_
      let text1 := stripTags text
      let text2 := replaceEsc 'n' (replaceEsc 'N' text1)
      if (pyStrip text2).isEmpty then none
      else some (vtt_start ++ (' ' :: '-' :: '-' :: '>' :: ' ' :: vtt_end), pyStrip text2)

/-- The line loop of ass_to_vtt: strip each line; an events header (compared
lowercased) enters in-events mode; any other line starting with an opening
bracket while in events mode stops the whole scan; inside events, Format:
lines set the schema and Dialogue: rows are mapped through it, and are
skipped while no schema has been set. -/
def assLoop : List (List Char) → Bool → Option (List (List Char)) → List (List Char) →
    List (List Char)
  | [], _, _, acc => acc
  | rawLine :: rest, in_events, format_line, acc =>
    let line := pyStrip rawLine
    if pyLower line = ['[', 'e', 'v', 'e', 'n', 't', 's', ']'] then
      assLoop rest true format_line acc
    else if ['['].isPrefixOf line && in_events then acc
    else if in_events then
      if ['f', 'o', 'r', 'm', 'a', 't', ':'].isPrefixOf (pyLower line) then
        assLoop rest in_events (some (parseFormatLine line)) acc
      else if ['d', 'i', 'a', 'l', 'o', 'g', 'u', 'e', ':'].isPrefixOf (pyLower line) then
        match format_line with
        | none => assLoop rest in_events format_line acc
        | some fl =>
          match processDialogue fl line with
          | some (timing, text) => assLoop rest in_events format_line (acc ++ [timing, text, []])
          | none => assLoop rest in_events format_line acc
      else assLoop rest in_events format_line acc
    else assLoop rest in_events format_line acc

/-- ass_to_vtt: run the line loop over the newline-split input, starting from
the WEBVTT header lines, and join the collected lines with newlines. -/
def ass_to_vtt (s : String) : String :=
  joinNl (assLoop (splitOnChar '\n' s.data) false none
    [['W', 'E', 'B', 'V', 'T', 'T'], []])

/-- The SRT timestamp-line test: the line contains both an arrow and a comma. -/
def isTsLine (l : List Char) : Bool :=
  containsSub l ['-', '-', '>'] && l.contains ','

/-- The comma-to-period rewrite applied to the timestamp line. -/
def commaToDot (c : Char) : Char := if c = ',' then '.' else c

/-- The per-block step of srt_to_vtt: strip and split the block into lines,
drop blocks of fewer than two lines, find the first timestamp line, rewrite
its commas to periods, and take all strictly later lines verbatim as the cue
text, dropping the block when there are none. -/
def processSrtBlock (block : List Char) : Option (List Char × List (List Char)) :=
  let lines := splitOnChar '\n' (pyStrip block)
  if lines.length < 2 then none
  else
    match List.findIdx? isTsLine lines with
    | none => none
    | some i =>
      let textLines := lines.drop (i + 1)
      if textLines.isEmpty then none
      else some ((lines.getD i []).map commaToDot, textLines)

/-- Accumulate one SRT block into the output line list. -/
def srtStep (acc : List (List Char)) (b : List Char) : List (List Char) :=
  match processSrtBlock b with
  | some (ts, txt) => acc ++ [ts] ++ txt ++ [[]]
  | none => acc

/-- srt_to_vtt: empty input short-circuits to the bare header document;
otherwise split the stripped input into blocks on runs of blank lines and
emit each well-formed block as a cue. -/
def srt_to_vtt (s : String) : String :=
  if s = "" then "WEBVTT\n\n"
  else joinNl ([['W', 'E', 'B', 'V', 'T', 'T'], []] ++
    (splitBlocks (pyStrip s.data)).foldl srtStep [])

/-- convert_to_vtt: empty input short-circuits; input containing one of the
three ASS section markers goes to the ASS path, anything else to SRT. -/
def convert_to_vtt (content : String) : String :=
  if content = "" then "WEBVTT\n\n"
  else if containsSub content.data ("[Script Info]").data
      || containsSub content.data ("[V4+ Styles]").data
      || containsSub content.data ("[Events]").data then ass_to_vtt content
  else srt_to_vtt content

/-- Claim C8: the empty input converts to exactly the header-only document
WEBVTT followed by two newlines. -/
theorem c8_empty_input : convert_to_vtt "" = "WEBVTT\n\n" := by decide

/-- Claim C1 counterexample: on the spec's own example document, whose Format:
line declares only the three columns Start, End, Text while the Dialogue: row
carries four comma-separated fields, the fields shift: the leading layer
field 0 is taken as the start time and the end time lands inside the text, so
the emitted timing line is not the claimed one, and the claimed timing line
00:00:01.500 --> 00:00:02.750 appears nowhere in the output. -/
theorem c1_counterexample :
    convert_to_vtt
        "[Events]\nFormat: Start, End, Text\nDialogue: 0,0:00:01.50,0:00:02.75,Hello \x7b\\pos(0,0)\x7dworld"
      = "WEBVTT\n\n 0 --> 00:00:01.500\n0:00:02.75,Hello world\n"
    ∧ containsSub
        (convert_to_vtt
          "[Events]\nFormat: Start, End, Text\nDialogue: 0,0:00:01.50,0:00:02.75,Hello \x7b\\pos(0,0)\x7dworld").data
        ("00:00:01.500 --> 00:00:02.750").data = false := by
  exact ⟨by decide, by decide⟩

/-- Claim C1 as amended: with a Format: line declaring the four columns
Layer, Start, End, Text, matching the four comma-separated fields of the
Dialogue: row, the converter emits cue text Hello world and timing line
00:00:01.500 --> 00:00:02.750; with the original three-column schema the
fields shift one place as shown in the counterexample. -/
theorem c1_amended_thm :
    convert_to_vtt
        "[Events]\nFormat: Layer, Start, End, Text\nDialogue: 0,0:00:01.50,0:00:02.75,Hello \x7b\\pos(0,0)\x7dworld"
      = "WEBVTT\n\n00:00:01.500 --> 00:00:02.750\nHello world\n" := by
  decide

/-- Claim C7 counterexample: the same two-cue SRT document with CRLF line
endings and with LF line endings converts to different outputs, so no
line-ending normalization takes place before block splitting. -/
theorem c7_counterexample :
    srt_to_vtt
        "1\r\n00:00:01,000 --> 00:00:02,500\r\nHello\r\n\r\n2\r\n00:00:03,000 --> 00:00:04,500\r\nWorld"
      ≠ srt_to_vtt
        "1\n00:00:01,000 --> 00:00:02,500\nHello\n\n2\n00:00:03,000 --> 00:00:04,500\nWorld" := by
  decide

/-- Claim C7 as amended: srt_to_vtt performs no line-ending normalization;
blocks are split only on runs of two or more bare LF characters, so a CRLF
document never splits (the blank line is CR LF CR LF) and is processed as a
single block whose first timestamp line keeps its trailing CR and whose text
swallows the remaining cues verbatim, while the LF document yields the two
expected cues. -/
theorem c7_no_normalization :
    srt_to_vtt
        "1\r\n00:00:01,000 --> 00:00:02,500\r\nHello\r\n\r\n2\r\n00:00:03,000 --> 00:00:04,500\r\nWorld"
      = "WEBVTT\n\n00:00:01.000 --> 00:00:02.500\r\nHello\r\n\r\n2\r\n00:00:03,000 --> 00:00:04,500\r\nWorld\n"
    ∧ srt_to_vtt
        "1\n00:00:01,000 --> 00:00:02,500\nHello\n\n2\n00:00:03,000 --> 00:00:04,500\nWorld"
      = "WEBVTT\n\n00:00:01.000 --> 00:00:02.500\nHello\n\n00:00:03.000 --> 00:00:04.500\nWorld\n" := by
  exact ⟨by decide, by decide⟩

/-- Claim C3 counterexample: an hour field with leading zeros is not
zero-padded-as-needed but re-rendered from its integer value, so the
three-digit hour field 007 collapses to 07 instead of staying 007. -/
theorem c3_counterexample :
    convert_timestamp "007:00:00.00" = "07:00:00.000"
    ∧ ("07:00:00.000" : String) ≠ "007:00:00.000" := by
  exact ⟨by decide, by decide⟩

/-- Claim C6 counterexample: a whitespace-only input yields the header line
followed by a single newline, not the claimed WEBVTT plus two newlines; only
the exactly-empty input takes the short-circuit that returns two newlines. -/
theorem c6_counterexample :
    convert_to_vtt " " = "WEBVTT\n" ∧ ("WEBVTT\n" : String) ≠ "WEBVTT\n\n" := by
  exact ⟨by decide, by decide⟩

theorem takeWhile_digits_colon (h t : List Char) (hd : ∀ c ∈ h, c.isDigit = true) :
    (h ++ ':' :: t).takeWhile Char.isDigit = h
    ∧ (h ++ ':' :: t).dropWhile Char.isDigit = ':' :: t := by
  induction h with
  | nil =>
    have hcolon : (':').isDigit = false := by decide
    constructor
    · simp [List.takeWhile_cons, hcolon]
    · simp [List.dropWhile_cons, hcolon]
  | cons a h ih =>
    have ha : a.isDigit = true := hd a (List.mem_cons_self a h)
    have ih2 := ih (fun c hc => hd c (List.mem_cons_of_mem a hc))
    constructor
    · simpa [List.takeWhile_cons, ha] using ih2.1
    · simpa [List.dropWhile_cons, ha] using ih2.2

theorem convertTimestampL_shape (h : List Char) (m1 m2 s1 s2 c1 c2 : Char)
    (suffix : List Char) (hh : h ≠ []) (hd : ∀ c ∈ h, c.isDigit = true)
    (hm1 : m1.isDigit = true) (hm2 : m2.isDigit = true) (hs1 : s1.isDigit = true)
    (hs2 : s2.isDigit = true) (hc1 : c1.isDigit = true) (hc2 : c2.isDigit = true) :
    convertTimestampL (h ++ ':' :: m1 :: m2 :: ':' :: s1 :: s2 :: '.' :: c1 :: c2 :: suffix)
      = pad2L (digitsToNat h) ++ ':' :: m1 :: m2 :: ':' :: s1 :: s2 :: '.' :: c1 :: c2 :: '0' :: [] := by
  obtain ⟨tw, dw⟩ :=
    takeWhile_digits_colon h (m1 :: m2 :: ':' :: s1 :: s2 :: '.' :: c1 :: c2 :: suffix) hd
  unfold convertTimestampL matchAssTs
  rw [tw, dw]
  simp [List.isEmpty_eq_false.mpr hh, hm1, hm2, hs1, hs2, hc1, hc2]

/-- Claim C3 as amended: a timestamp of shape hours colon two-digit minutes
colon two-digit seconds period two-digit centiseconds is converted by
re-rendering the hour digits as their integer value zero-padded to width at
least two (canonicalizing leading zeros, so 007 becomes 07), copying minutes,
seconds and centiseconds verbatim, and appending the literal digit 0 to the
centiseconds; a timestamp the pattern does not match at its start is passed
through unmodified, never an error; in particular .50 becomes .500 and .05
becomes .050. -/
theorem c3_hour_normalization :
    (∀ (h : List Char) (m1 m2 s1 s2 c1 c2 : Char),
      h ≠ [] → (∀ c ∈ h, c.isDigit = true) →
      m1.isDigit = true → m2.isDigit = true → s1.isDigit = true → s2.isDigit = true →
      c1.isDigit = true → c2.isDigit = true →
      convert_timestamp ⟨h ++ ':' :: m1 :: m2 :: ':' :: s1 :: s2 :: '.' :: c1 :: c2 :: []⟩
        = ⟨pad2L (digitsToNat h) ++ ':' :: m1 :: m2 :: ':' :: s1 :: s2 :: '.' :: c1 :: c2 :: '0' :: []⟩)
    ∧ (∀ ts : String, matchAssTs ts.data = none → convert_timestamp ts = ts)
    ∧ convert_timestamp "0:00:01.50" = "00:00:01.500"
    ∧ convert_timestamp "0:00:01.05" = "00:00:01.050" := by
  refine ⟨?_, ?_, by decide, by decide⟩
  · intro h m1 m2 s1 s2 c1 c2 hh hd hm1 hm2 hs1 hs2 hc1 hc2
    show ⟨convertTimestampL _⟩ = (⟨_⟩ : String)
    rw [convertTimestampL_shape h m1 m2 s1 s2 c1 c2 [] hh hd hm1 hm2 hs1 hs2 hc1 hc2]
  · intro ts hnone
    show ⟨convertTimestampL ts.data⟩ = ts
    unfold convertTimestampL
    rw [hnone]

/-- Witness for claim C3: the general statement applied at the concrete
timestamp 7:01:02.34, and the pass-through statement at the non-matching
input abc. -/
theorem c3_witness :
    convert_timestamp "7:01:02.34" = "07:01:02.340" ∧ convert_timestamp "abc" = "abc" := by
  constructor
  · have hgen := c3_hour_normalization.1 ['7'] '0' '1' '0' '2' '3' '4'
      (by decide) (by decide) (by decide) (by decide) (by decide) (by decide)
      (by decide) (by decide)
    have h1 : ("7:01:02.34" : String)
        = ⟨['7'] ++ ':' :: '0' :: '1' :: ':' :: '0' :: '2' :: '.' :: '3' :: '4' :: []⟩ := by decide
    have h2 : (⟨pad2L (digitsToNat ['7']) ++ ':' :: '0' :: '1' :: ':' :: '0' :: '2' :: '.' :: '3' :: '4' :: '0' :: []⟩ : String)
        = "07:01:02.340" := by decide
    exact h1 ▸ h2 ▸ hgen
  · exact c3_hour_normalization.2.1 "abc" (by decide)

/-- Claim C9: ASS timestamp matching is anchored at the start only: a value
whose front matches the hours colon minutes colon seconds period centiseconds
pattern is converted from that matched span with any surplus trailing
characters silently discarded, so 0:00:01.505 becomes 00:00:01.500 with the
third fractional digit dropped; a value with no such matching span at its
start is passed through unmodified. -/
theorem c9_prefix_truncation :
    (∀ (h : List Char) (m1 m2 s1 s2 c1 c2 : Char) (suffix : List Char),
      h ≠ [] → (∀ c ∈ h, c.isDigit = true) →
      m1.isDigit = true → m2.isDigit = true → s1.isDigit = true → s2.isDigit = true →
      c1.isDigit = true → c2.isDigit = true →
      convert_timestamp ⟨h ++ ':' :: m1 :: m2 :: ':' :: s1 :: s2 :: '.' :: c1 :: c2 :: suffix⟩
        = ⟨pad2L (digitsToNat h) ++ ':' :: m1 :: m2 :: ':' :: s1 :: s2 :: '.' :: c1 :: c2 :: '0' :: []⟩)
    ∧ convert_timestamp "0:00:01.505" = "00:00:01.500"
    ∧ (∀ ts : String, matchAssTs ts.data = none → convert_timestamp ts = ts) := by
  refine ⟨?_, by decide, ?_⟩
  · intro h m1 m2 s1 s2 c1 c2 suffix hh hd hm1 hm2 hs1 hs2 hc1 hc2
    show ⟨convertTimestampL _⟩ = (⟨_⟩ : String)
    rw [convertTimestampL_shape h m1 m2 s1 s2 c1 c2 suffix hh hd hm1 hm2 hs1 hs2 hc1 hc2]
  · intro ts hnone
    show ⟨convertTimestampL ts.data⟩ = ts
    unfold convertTimestampL
    rw [hnone]

/-- Witness for claim C9: the truncating statement applied at the concrete
value 1:02:03.45 followed by the surplus characters 678, and the pass-through
statement at the non-matching input 1:2:03.45. -/
theorem c9_witness :
    convert_timestamp "1:02:03.45678" = "01:02:03.450"
    ∧ convert_timestamp "1:2:03.45" = "1:2:03.45" := by
  constructor
  · have hgen := c9_prefix_truncation.1 ['1'] '0' '2' '0' '3' '4' '5' ['6', '7', '8']
      (by decide) (by decide) (by decide) (by decide) (by decide) (by decide)
      (by decide) (by decide)
    have h1 : ("1:02:03.45678" : String)
        = ⟨['1'] ++ ':' :: '0' :: '2' :: ':' :: '0' :: '3' :: '.' :: '4' :: '5' :: ['6', '7', '8']⟩ := by decide
    have h2 : (⟨pad2L (digitsToNat ['1']) ++ ':' :: '0' :: '2' :: ':' :: '0' :: '3' :: '.' :: '4' :: '5' :: '0' :: []⟩ : String)
        = "01:02:03.450" := by decide
    exact h1 ▸ h2 ▸ hgen
  · exact c9_prefix_truncation.2.2 "1:2:03.45" (by decide)

/-- Claim C2: for every SRT block that yields a cue, the first line containing
both an arrow and a comma is the timestamp line, the emitted timing line is
that line with every comma replaced by a period and no other validation, and
the cue text is exactly the lines strictly after it, verbatim; in particular
the single-block document 1, timestamp, Hello converts to output containing
the rewritten timestamp line followed by Hello. -/
theorem c2_srt_block_extraction :
    (∀ (block : List Char) (i : Nat),
      2 ≤ (splitOnChar '\n' (pyStrip block)).length →
      List.findIdx? isTsLine (splitOnChar '\n' (pyStrip block)) = some i →
      (splitOnChar '\n' (pyStrip block)).drop (i + 1) ≠ [] →
      processSrtBlock block
        = some (((splitOnChar '\n' (pyStrip block)).getD i []).map commaToDot,
            (splitOnChar '\n' (pyStrip block)).drop (i + 1)))
    ∧ (∃ pre post : String,
        srt_to_vtt "1\n00:00:01,000 --> 00:00:02,500\nHello"
          = pre ++ "00:00:01.000 --> 00:00:02.500\nHello\n" ++ post) := by
  constructor
  · intro block i hlen hidx hdrop
    simp only [processSrtBlock]
    rw [if_neg (Nat.not_lt.mpr hlen), hidx]
    simp [List.isEmpty_eq_false.mpr hdrop]
  · exact ⟨"WEBVTT\n\n", "", by decide⟩

/-- Witness for claim C2: the block-extraction statement applied at the
concrete example block, whose timestamp line sits at index 1. -/
theorem c2_witness :
    processSrtBlock ("1\n00:00:01,000 --> 00:00:02,500\nHello").data
      = some (("00:00:01.000 --> 00:00:02.500").data, [("Hello").data]) := by
  have h := c2_srt_block_extraction.1 ("1\n00:00:01,000 --> 00:00:02,500\nHello").data 1
    (by decide) (by decide) (by decide)
  exact h.trans (by decide)

/-- Claim C4: format detection never fails; every input containing one of the
three literal case-sensitive section markers is dispatched to the ASS
conversion path, and every other input is dispatched to the SRT path. -/
theorem c4_format_detection_total (content : String) :
    convert_to_vtt content
      = if containsSub content.data ("[Script Info]").data
          || containsSub content.data ("[V4+ Styles]").data
          || containsSub content.data ("[Events]").data then ass_to_vtt content
        else srt_to_vtt content := by
  by_cases hc : content = ""
  · subst hc; decide
  · unfold convert_to_vtt
    rw [if_neg hc]

theorem isPrefixOf_exists {p l : List Char} (h : p.isPrefixOf l = true) :
    ∃ t, l = p ++ t := by
  induction p generalizing l with
  | nil => exact ⟨l, rfl⟩
  | cons a p ih =>
    cases l with
    | nil => simp [List.isPrefixOf] at h
    | cons b l =>
      simp only [List.isPrefixOf, Bool.and_eq_true, beq_iff_eq] at h
      obtain ⟨hab, hrest⟩ := h
      obtain ⟨t, ht⟩ := ih hrest
      exact ⟨t, by rw [hab, ht]; rfl⟩

theorem pyLower_cons {L : List Char} {x : Char} {r : List Char}
    (h : pyLower L = x :: r) : ∃ c L', L = c :: L' ∧ toLowerPy c = x := by
  cases L with
  | nil => simp [pyLower] at h
  | cons c L' =>
    simp only [pyLower, List.map_cons, List.cons.injEq] at h
    exact ⟨c, L', rfl, h.1⟩

theorem ne_bracket_of_lower_d {c : Char} (h : toLowerPy c = 'd') : c ≠ '[' := by
  intro he
  subst he
  revert h
  decide

theorem assLoop_no_events (lines : List (List Char)) (acc : List (List Char))
    (h : ∀ l ∈ lines, pyLower (pyStrip l) ≠ ['[', 'e', 'v', 'e', 'n', 't', 's', ']']) :
    assLoop lines false none acc = acc := by
  induction lines with
  | nil => rfl
  | cons l rest ih =>
    have h0 := h l (List.mem_cons_self l rest)
    have hrest := ih (fun x hx => h x (List.mem_cons_of_mem l hx))
    simp only [assLoop]
    rw [if_neg h0]
    simpa using hrest

/-- Claim C5: the ASS scan is a state machine in which, first, a document
with no line whose stripped lowercased form is the events header produces no
cues at all (dialogue rows are only ever consumed after that header has been
seen); second, a dialogue row reached in events mode while no Format: line
has been seen yet is skipped without effect; and third, any other bracketed
header reached in events mode ends the scan immediately with the accumulated
output, so no later line of the document, including any second events block,
is ever consulted. -/
theorem c5_ass_state_machine :
    (∀ s : String,
      (∀ l ∈ splitOnChar '\n' s.data,
        pyLower (pyStrip l) ≠ ['[', 'e', 'v', 'e', 'n', 't', 's', ']']) →
      ass_to_vtt s = "WEBVTT\n")
    ∧ (∀ (rawLine : List Char) (rest acc : List (List Char)),
        (['d', 'i', 'a', 'l', 'o', 'g', 'u', 'e', ':']).isPrefixOf (pyLower (pyStrip rawLine)) = true →
        assLoop (rawLine :: rest) true none acc = assLoop rest true none acc)
    ∧ (∀ (rawLine : List Char) (rest : List (List Char))
        (fmt : Option (List (List Char))) (acc : List (List Char)),
        (['[']).isPrefixOf (pyStrip rawLine) = true →
        pyLower (pyStrip rawLine) ≠ ['[', 'e', 'v', 'e', 'n', 't', 's', ']'] →
        assLoop (rawLine :: rest) true fmt acc = acc) := by
  refine ⟨?_, ?_, ?_⟩
  · intro s hs
    unfold ass_to_vtt
    rw [assLoop_no_events _ _ hs]
    decide
  · intro rawLine rest acc hdlg
    obtain ⟨t, ht⟩ := isPrefixOf_exists hdlg
    obtain ⟨c, L', hL, hc⟩ := pyLower_cons ht
    have hne : pyLower (pyStrip rawLine) ≠ ['[', 'e', 'v', 'e', 'n', 't', 's', ']'] := by
      rw [ht]
      intro he
      simpa using congrArg List.head? he
    have h2 : (['[']).isPrefixOf (pyStrip rawLine) = false := by
      rw [hL]
      simp only [List.isPrefixOf, Bool.and_eq_true, beq_iff_eq, Bool.and_eq_false_iff]
      left
      exact beq_eq_false_iff_ne.mpr (Ne.symm (ne_bracket_of_lower_d hc))
    have h3 : (['f', 'o', 'r', 'm', 'a', 't', ':']).isPrefixOf (pyLower (pyStrip rawLine)) = false := by
      rw [ht]
      have : (('f' == 'd') : Bool) = false := by decide
      simp [List.isPrefixOf, this]
    simp only [assLoop]
    rw [if_neg hne]
    simp [h2, h3, hdlg]
  · intro rawLine rest fmt acc hbr hne
    simp only [assLoop]
    rw [if_neg hne]
    simp [hbr]

/-- Witness for claim C5: the three statements applied at concrete inputs: a
document with no events header converts to the bare header document; a
dialogue row with no schema set is skipped; a bracketed non-events header in
events mode returns the accumulator unchanged. -/
theorem c5_witness :
    ass_to_vtt "hello" = "WEBVTT\n"
    ∧ assLoop [("Dialogue: a,b").data] true none [['x']] = [['x']]
    ∧ assLoop [("[Styles]").data, ("junk").data] true none [['a']] = [['a']] := by
  refine ⟨c5_ass_state_machine.1 "hello" (by decide), ?_, ?_⟩
  · have h := c5_ass_state_machine.2.1 ("Dialogue: a,b").data [] [['x']] (by decide)
    exact h.trans rfl
  · exact c5_ass_state_machine.2.2 ("[Styles]").data [("junk").data] none [['a']]
      (by decide) (by decide)

theorem containsSub_mem {l pat : List Char} (h : containsSub l pat = true) :
    ∀ c ∈ pat, c ∈ l := by
  induction l with
  | nil =>
    intro c hc
    cases pat with
    | nil => simp at hc
    | cons a p => simp [containsSub, List.isPrefixOf] at h
  | cons x t ih =>
    intro c hc
    rcases (Bool.or_eq_true _ _).mp h with h1 | h2
    · obtain ⟨r, hr⟩ := isPrefixOf_exists h1
      rw [hr]
      exact List.mem_append.mpr (Or.inl hc)
    · exact List.mem_cons_of_mem x (ih h2 c hc)

theorem no_marker_of_space {s : List Char} (hs : s.all isspacePy = true)
    (pat : List Char) (c : Char) (hc : c ∈ pat) (hcs : isspacePy c = false) :
    containsSub s pat = false := by
  by_contra hx
  have htrue : containsSub s pat = true := by
    cases hcs2 : containsSub s pat with
    | false => exact absurd hcs2 hx
    | true => rfl
  have hmem : c ∈ s := containsSub_mem htrue c hc
  have := List.all_eq_true.mp hs c hmem
  rw [hcs] at this
  exact Bool.false_ne_true this

theorem foldl_srtStep_none (blocks : List (List Char)) (acc : List (List Char))
    (h : ∀ b ∈ blocks, processSrtBlock b = none) :
    blocks.foldl srtStep acc = acc := by
  induction blocks generalizing acc with
  | nil => rfl
  | cons b bs ih =>
    have hb := h b (List.mem_cons_self b bs)
    have hstep : srtStep acc b = acc := by simp [srtStep, hb]
    simp only [List.foldl_cons, hstep]
    exact ih acc (fun x hx => h x (List.mem_cons_of_mem b hx))

/-- Claim C6 as amended: the converter is a total function; the exactly-empty
input returns the header plus two newlines, while the worst nonempty cases
degrade to the header plus a single newline: any whitespace-only input, and
any input with no ASS marker all of whose blocks are dropped by the SRT block
parser, return exactly WEBVTT followed by one newline. -/
theorem c6_degradation :
    convert_to_vtt "" = "WEBVTT\n\n"
    ∧ (∀ s : String, s ≠ "" → s.data.all isspacePy = true → convert_to_vtt s = "WEBVTT\n")
    ∧ (∀ s : String, s ≠ "" →
        containsSub s.data ("[Script Info]").data = false →
        containsSub s.data ("[V4+ Styles]").data = false →
        containsSub s.data ("[Events]").data = false →
        (∀ b ∈ splitBlocks (pyStrip s.data), processSrtBlock b = none) →
        convert_to_vtt s = "WEBVTT\n") := by
  refine ⟨by decide, ?_, ?_⟩
  · intro s hne hws
    have h1 : containsSub s.data ("[Script Info]").data = false :=
      no_marker_of_space hws _ '[' (by decide) (by decide)
    have h2 : containsSub s.data ("[V4+ Styles]").data = false :=
      no_marker_of_space hws _ '[' (by decide) (by decide)
    have h3 : containsSub s.data ("[Events]").data = false :=
      no_marker_of_space hws _ '[' (by decide) (by decide)
    have hstrip : pyStrip s.data = [] := by
      unfold pyStrip
      rw [List.dropWhile_eq_nil_iff.mpr (fun x hx => List.all_eq_true.mp hws x hx)]
      rfl
    unfold convert_to_vtt
    rw [if_neg hne, h1, h2, h3]
    rw [if_neg (by decide : ¬ ((false || false || false : Bool) = true))]
    unfold srt_to_vtt
    rw [if_neg hne, hstrip]
    decide
  · intro s hne h1 h2 h3 hblocks
    unfold convert_to_vtt
    rw [if_neg hne, h1, h2, h3]
    rw [if_neg (by decide : ¬ ((false || false || false : Bool) = true))]
    unfold srt_to_vtt
    rw [if_neg hne, foldl_srtStep_none _ _ hblocks]
    decide

/-- Witness for claim C6: the whitespace statement applied at a tab-space
input and the all-blocks-malformed statement applied at a document whose only
blocks lack a timestamp line. -/
theorem c6_witness :
    convert_to_vtt "\t " = "WEBVTT\n" ∧ convert_to_vtt "junk\n\nmore" = "WEBVTT\n" := by
  constructor
  · exact c6_degradation.2.1 "\t " (by decide) (by decide)
  · exact c6_degradation.2.2 "junk\n\nmore" (by decide) (by decide) (by decide)
      (by decide) (by decide)

theorem dropWhile_head_not {p : Char → Bool} {l : List Char} {c : Char}
    (h : (l.dropWhile p).head? = some c) : p c = false := by
  induction l with
  | nil => simp [List.dropWhile] at h
  | cons a t ih =>
    rw [List.dropWhile_cons] at h
    by_cases hpa : p a = true
    · rw [if_pos hpa] at h
      exact ih h
    · rw [if_neg hpa] at h
      simp only [List.head?_cons, Option.some.injEq] at h
      rw [← h]
      exact Bool.eq_false_iff.mpr hpa

theorem dropWhile_getLast {p : Char → Bool} {l : List Char}
    (h : l.dropWhile p ≠ []) : (l.dropWhile p).getLast? = l.getLast? := by
  induction l with
  | nil => simp at h
  | cons a t ih =>
    rw [List.dropWhile_cons] at h ⊢
    by_cases hpa : p a = true
    · rw [if_pos hpa] at h ⊢
      rw [ih h]
      have ht : t ≠ [] := by
        intro he
        rw [he] at h
        simp at h
      cases t with
      | nil => exact absurd rfl ht
      | cons b t' => exact (List.getLast?_cons_cons).symm
    · rw [if_neg hpa]

theorem pyStrip_head {l : List Char} {c : Char} (h : (pyStrip l).head? = some c) :
    isspacePy c = false := by
  unfold pyStrip at h
  rw [List.head?_reverse] at h
  have hne : (l.dropWhile isspacePy).reverse.dropWhile isspacePy ≠ [] := by
    intro he
    rw [he] at h
    simp at h
  rw [dropWhile_getLast hne, List.getLast?_reverse] at h
  exact dropWhile_head_not h

theorem pyStrip_last {l : List Char} {c : Char} (h : (pyStrip l).getLast? = some c) :
    isspacePy c = false := by
  unfold pyStrip at h
  rw [List.getLast?_reverse] at h
  exact dropWhile_head_not h

/-- Claim C10: every cue text emitted by the ASS dialogue handler has been
stripped of surrounding whitespace before emission: it is nonempty and
neither its first nor its last character is whitespace. -/
theorem c10_text_stripped (format_line : List (List Char)) (line : List Char)
    (timing text : List Char)
    (h : processDialogue format_line line = some (timing, text)) :
    text ≠ []
    ∧ (∀ c, text.head? = some c → isspacePy c = false)
    ∧ (∀ c, text.getLast? = some c → isspacePy c = false) := by
  simp only [processDialogue] at h
  split at h
  · exact absurd h (by simp)
  · split at h
    · exact absurd h (by simp)
    · split at h
      · exact absurd h (by simp)
      · rename_i hguard
        simp only [Option.some.injEq, Prod.mk.injEq] at h
        obtain ⟨htiming, htext⟩ := h
        subst htext
        refine ⟨?_, ?_, ?_⟩
        · intro he
          rw [he] at hguard
          exact hguard rfl
        · intro c hc
          exact pyStrip_head hc
        · intro c hc
          exact pyStrip_last hc

/-- Witness for claim C10: the statement applied at a concrete schema and
dialogue row whose text field carries surrounding spaces that are stripped. -/
theorem c10_witness :
    processDialogue [("start").data, ("end").data, ("text").data]
        ("Dialogue: 1:00:00.00,1:00:00.50,  Hi  ").data
      = some ((" 1:00:00.00 --> 01:00:00.500").data, ("Hi").data)
    ∧ ("Hi").data ≠ [] := by
  constructor
  · decide
  · exact (c10_text_stripped [("start").data, ("end").data, ("text").data]
      ("Dialogue: 1:00:00.00,1:00:00.50,  Hi  ").data
      (" 1:00:00.00 --> 01:00:00.500").data ("Hi").data (by decide)).1

end Strmr
